import Mathlib

/-!
Shallow embedding of the account-linking and credit subsystem of
`src/telegram_bot.py` (UPSC predictor Telegram bot), together with
theorems settling the specification claims about it.

The `users` table is modelled as a `List Account`, the `otp_codes`
table as a `List OtpRecord`.  Supabase calls become pure functions on
these lists: `select ... eq` is `List.filter` + `head?` (mirroring
`result.data[0]`), `update ... eq` is `List.map` guarded by the key
equality, `delete ... eq` is `List.filter` with the negated key
equality, `insert` is an append.  Time is an abstract `Nat`; the
external random draw, Resend send result and Claude API result are
explicit parameters.
-/

/-- Row of the `users` table. -/
structure Account where
  email : String
  telegram_id : Option Nat
  telegram_username : Option String
  free_credits : Int
  paid_credits : Int
  total_queries : Nat
  email_verified : Bool
  last_query_at : Option Nat
deriving Repr, DecidableEq

/-- Reserved domain of placeholder emails (`tg_<id>@telegram.placeholder`). -/
def placeholderDomain : String := "@telegram.placeholder"

/-- Placeholder email assigned by `create_user_from_telegram`. -/
def placeholder_email (tid : Nat) : String :=
  "tg_" ++ toString tid ++ placeholderDomain

/-- Embeds Python `topic.startswith('/')`: the first character is `/`. -/
def startsWithSlash (s : String) : Bool :=
  s.data.head? == some '/'

/-- Embeds Python single-character membership `c in s`. -/
def containsChar (s : String) (c : Char) : Bool :=
  s.data.contains c

/-- Embeds Python `s.endswith(suf)`. -/
def endsWithStr (s suf : String) : Bool :=
  suf.data.isSuffixOf s.data

/-- Embeds `get_user_by_telegram_id`: first `users` row whose
`telegram_id` equals the argument (`result.data[0] if result.data else None`). -/
def get_user_by_telegram_id (db : List Account) (tid : Nat) : Option Account :=
  (db.filter (fun a => a.telegram_id == some tid)).head?

/-- Embeds `get_user_by_email`: first `users` row whose `email` equals
the argument. -/
def get_user_by_email (db : List Account) (email : String) : Option Account :=
  (db.filter (fun a => a.email == email)).head?

/-- Embeds `create_user_from_telegram`: insert a fresh row with the
placeholder email, one free credit and zero paid credits. -/
def create_user_from_telegram (db : List Account) (tid : Nat) (uname : Option String) :
    List Account :=
  db ++ [{ email := placeholder_email tid
           telegram_id := some tid
           telegram_username := uname
           free_credits := 1
           paid_credits := 0
           total_queries := 0
           email_verified := false
           last_query_at := none }]

/-- Embeds `link_telegram_to_user`: `update {telegram_id, telegram_username}`
on every row whose `email` matches. -/
def link_telegram_to_user (db : List Account) (email : String) (tid : Nat)
    (uname : Option String) : List Account :=
  db.map (fun a =>
    if a.email == email then
      { a with telegram_id := some tid, telegram_username := uname }
    else a)

/-- Embeds `update_user_credits`: `update {free_credits, paid_credits,
total_queries, last_query_at}` on every row whose `telegram_id` matches;
`now` stands for `datetime.utcnow()`. -/
def update_user_credits (db : List Account) (tid : Nat) (f p : Int) (tq : Nat)
    (now : Nat) : List Account :=
  db.map (fun a =>
    if a.telegram_id == some tid then
      { a with free_credits := f, paid_credits := p, total_queries := tq,
               last_query_at := some now }
    else a)

/-- Embeds the `supabase.table('users').delete().eq('telegram_id', ...)`
call inside `receive_otp_for_link`. -/
def delete_user_by_telegram_id (db : List Account) (tid : Nat) : List Account :=
  db.filter (fun a => !(a.telegram_id == some tid))

/-- Embeds the `supabase.table('users').update({... merged credits ...})
.eq('email', email)` call inside `receive_otp_for_link`. -/
def update_web_user_merge (db : List Account) (email : String) (tid : Nat)
    (uname : Option String) (f p : Int) : List Account :=
  db.map (fun a =>
    if a.email == email then
      { a with telegram_id := some tid, telegram_username := uname,
               free_credits := f, paid_credits := p }
    else a)

/-- Sum of `free_credits + paid_credits` over all rows. -/
def totalCredits (db : List Account) : Int :=
  (db.map (fun a => a.free_credits + a.paid_credits)).sum

/-- Row of the `otp_codes` table. -/
structure OtpRecord where
  id : Nat
  email : String
  otp : String
  expires_at : Nat
  used : Bool
deriving Repr, DecidableEq

/-- Filter used by `verify_otp`'s select:
`.eq('email', email).eq('otp', otp).eq('used', False)`. -/
def otp_matches (email code : String) (r : OtpRecord) : Bool :=
  r.email == email && r.otp == code && r.used == false

/-- Embeds `verify_otp`: select the first unused record matching email
and code; fail if none or if `now > expires_at`; otherwise mark that
record (by `id`) used and succeed.  Returns the result together with
the post-state of the `otp_codes` table. -/
def verify_otp (db : List OtpRecord) (email code : String) (now : Nat) :
    Bool × List OtpRecord :=
  match (db.filter (otp_matches email code)).head? with
  | none => (false, db)
  | some r =>
    if now > r.expires_at then (false, db)
    else
      (true, db.map (fun x => if x.id == r.id then { x with used := true } else x))

/-- Fuel-indexed base-10 digit list (little-endian), embedding the digit
production of Python's `str` on a non-negative `int`. -/
def pyDigits (fuel : Nat) (n : Nat) : List Nat :=
  match fuel with
  | 0 => []
  | fuel + 1 => if n = 0 then [] else n % 10 :: pyDigits fuel (n / 10)

/-- Decimal rendering of a natural number, embedding Python's `str(n)`. -/
def natDecimalString (n : Nat) : String :=
  if n = 0 then "0"
  else ⟨((pyDigits n n).reverse.map (fun d => Char.ofNat (48 + d)))⟩

/-- Embeds `generate_otp`: `str(random.randint(100000, 999999))`, with
the random draw made an explicit parameter. -/
def generate_otp (draw : Nat) : String := natDecimalString draw

/-- Result of the `/link` entry handler as seen by the user. -/
inductive LinkCmdResult
  | alreadyLinked (email : String)
  | promptEmail
deriving Repr, DecidableEq

/-- Conversation state of the link flow (`ConversationHandler.END` is
`idle`; `WAITING_FOR_EMAIL` / `WAITING_FOR_OTP` as in the source). -/
inductive ConvState
  | idle
  | waiting_for_email
  | waiting_for_otp
deriving Repr, DecidableEq

/-- Embeds `link_command`: if the chat identity's row exists and its
email is not a placeholder, report the existing binding and end the
conversation; otherwise prompt for an email.  The handler performs no
database write, which the returned `List Account` makes explicit. -/
def link_command (db : List Account) (tid : Nat) :
    LinkCmdResult × ConvState × List Account :=
  match get_user_by_telegram_id db tid with
  | some u =>
    if !(endsWithStr u.email placeholderDomain) then
      (.alreadyLinked u.email, .idle, db)
    else
      (.promptEmail, .waiting_for_email, db)
  | none => (.promptEmail, .waiting_for_email, db)

/-- Iterate `link_command` and collect the per-call results, modelling a
user issuing `/link` several times in a row. -/
def link_command_iter (n : Nat) (db : List Account) (tid : Nat) :
    List Account × List LinkCmdResult :=
  match n with
  | 0 => (db, [])
  | n + 1 =>
    let r := link_command db tid
    let rest := link_command_iter n r.2.2 tid
    (rest.1, r.1 :: rest.2)

/-- Python truthiness of `existing_user.get('telegram_id')`: present and
nonzero. -/
def truthy_tid : Option Nat → Bool
  | none => false
  | some t => t != 0

/-- User-visible outcome of the email step of the link conversation. -/
inductive EmailStepResult
  | invalidEmail
  | notFound
  | linkedElsewhere
  | otpSent (email : String)
  | sendFailed
deriving Repr, DecidableEq

/-- Embeds `receive_email_for_link`.  `newOtp` is the record that
`generate_otp`/`save_otp` would insert; `saveOk` is the result of
`save_otp` (on failure nothing is written), `sendOk` the result of
`send_otp_email`.  `save_otp(email, otp) and send_otp_email(email, otp)`
short-circuits, so a record written by a successful `save_otp` stays in
the table even when the send then fails. -/
def receive_email_for_link (db : List Account) (otps : List OtpRecord)
    (tid : Nat) (email : String) (newOtp : OtpRecord) (saveOk sendOk : Bool) :
    ConvState × List OtpRecord × EmailStepResult :=
  if !(containsChar email '@') || !(containsChar email '.') then
    (.waiting_for_email, otps, .invalidEmail)
  else
    match get_user_by_email db email with
    | none => (.waiting_for_email, otps, .notFound)
    | some u =>
      if truthy_tid u.telegram_id && u.telegram_id != some tid then
        (.idle, otps, .linkedElsewhere)
      else
        let otps1 := if saveOk then otps ++ [newOtp] else otps
        if saveOk && sendOk then
          (.waiting_for_otp, otps1, .otpSent email)
        else
          (.waiting_for_email, otps1, .sendFailed)

/-- Embeds the merge step of `receive_otp_for_link` run after a
successful `verify_otp`: re-read both rows; when both exist, delete the
chat-bound row if its email is a placeholder, then write the summed
credits and the chat binding to every row with the submitted email;
when either is missing, fall back to `link_telegram_to_user`. -/
def merge_on_link (db : List Account) (tid : Nat) (uname : Option String)
    (email : String) : List Account :=
  match get_user_by_telegram_id db tid, get_user_by_email db email with
  | some tg, some web =>
    let db1 :=
      if endsWithStr tg.email placeholderDomain then
        delete_user_by_telegram_id db tid
      else db
    update_web_user_merge db1 email tid uname
      (web.free_credits + tg.free_credits) (web.paid_credits + tg.paid_credits)
  | _, _ => link_telegram_to_user db email tid uname

/-- Embeds `generate_questions`: the Claude call either returns the
generated text or raises, in which case the handler returns the error
string in its place. -/
def generate_questions (apiResult : Except String String) : String :=
  match apiResult with
  | .ok text => text
  | .error e => "Error generating questions: " ++ e

/-- User-visible outcome of `handle_message` on a free-text topic. -/
inductive MsgOutcome
  | ignoredCommand
  | internalError
  | noCredits
  | topicTooShort
  | topicTooLong
  | answered (text : String)
deriving Repr, DecidableEq

/-- Embeds `handle_message`: ignore commands; auto-create a missing
user; reject when `free + paid <= 0`; validate topic length; otherwise
generate (result `apiResult`), then deduct one credit — from
`free_credits` if positive, else from `paid_credits` — bump
`total_queries` and stamp `last_query_at`. -/
def handle_message (db : List Account) (tid : Nat) (uname : Option String)
    (topic : String) (apiResult : Except String String) (now : Nat) :
    MsgOutcome × List Account :=
  if startsWithSlash topic then (.ignoredCommand, db)
  else
    let db0 :=
      match get_user_by_telegram_id db tid with
      | some _ => db
      | none => create_user_from_telegram db tid uname
    match get_user_by_telegram_id db0 tid with
    | none => (.internalError, db0)
    | some user =>
      let free := user.free_credits
      let paid := user.paid_credits
      if free + paid ≤ 0 then (.noCredits, db0)
      else if topic.length < 5 then (.topicTooShort, db0)
      else if topic.length > 500 then (.topicTooLong, db0)
      else
        let questions := generate_questions apiResult
        let np := if free > 0 then (free - 1, paid) else (free, paid - 1)
        let tq := user.total_queries + 1
        (.answered questions, update_user_credits db0 tid np.1 np.2 tq now)

/-!
Concurrency model for the spend path.  `handle_message` performs the
read (select + credit check on the snapshot) and the write
(`update_user_credits` with values computed from the snapshot) as two
separate store calls with suspension points between them, so a schedule
may interleave the two halves of different requests on the same
account.
-/

/-- Control state of one in-flight spend request on the shared account:
not yet read; read a snapshot `(f, p, tq)` and passed the credit check,
write still pending; or finished with the recorded success flag. -/
inductive ProcState
  | ready
  | writing (f p : Int) (tq : Nat)
  | finished (success : Bool)
deriving Repr, DecidableEq

/-- Shared account plus the control states of the in-flight requests. -/
structure SpendSystem where
  acc_free : Int
  acc_paid : Int
  acc_tq : Nat
  procs : List ProcState
deriving Repr, DecidableEq

/-- Run one atomic store access of request `i`: a `ready` request reads
the account and either fails the `free + paid <= 0` check (finishing
unsuccessfully) or records its snapshot; a `writing` request writes the
credits computed from its snapshot exactly as `handle_message` does and
finishes successfully.  Out-of-range indices and finished requests do
nothing. -/
def stepProc (sys : SpendSystem) (i : Nat) : SpendSystem :=
  match sys.procs.get? i with
  | none => sys
  | some .ready =>
    if sys.acc_free + sys.acc_paid ≤ 0 then
      { sys with procs := sys.procs.set i (.finished false) }
    else
      { sys with procs := sys.procs.set i (.writing sys.acc_free sys.acc_paid sys.acc_tq) }
  | some (.writing f p tq) =>
    let np := if f > 0 then (f - 1, p) else (f, p - 1)
    { sys with acc_free := np.1, acc_paid := np.2, acc_tq := tq + 1,
               procs := sys.procs.set i (.finished true) }
  | some (.finished _) => sys

/-- Execute a schedule: a list of request indices, each entry granting
one atomic store access to that request. -/
def runSchedule (sys : SpendSystem) (sched : List Nat) : SpendSystem :=
  sched.foldl stepProc sys

/-- Initial system: account `(f, p)` with `n` spend requests pending. -/
def initSystem (f p : Int) (tq n : Nat) : SpendSystem :=
  { acc_free := f, acc_paid := p, acc_tq := tq, procs := List.replicate n .ready }

/-- Number of requests that finished successfully. -/
def successCount (sys : SpendSystem) : Nat :=
  sys.procs.countP (fun s => s == .finished true)

/-- Serialized schedule for requests `start, start+1, ...`: each
request performs its read and its write before the next one starts. -/
def seqSched (start n : Nat) : List Nat :=
  match n with
  | 0 => []
  | n + 1 => start :: start :: seqSched (start + 1) n

/-!
Concrete rows used to instantiate the theorems below.
-/

/-- Chat-only account: placeholder email, one free credit. -/
def accT : Account :=
  { email := "tg_1@telegram.placeholder", telegram_id := some 1,
    telegram_username := none, free_credits := 1, paid_credits := 0,
    total_queries := 0, email_verified := false, last_query_at := none }

/-- Web account for `bob@example.com`: no chat binding, three paid credits. -/
def accW : Account :=
  { email := "bob@example.com", telegram_id := none,
    telegram_username := none, free_credits := 0, paid_credits := 3,
    total_queries := 0, email_verified := true, last_query_at := none }

/-- Linked account with a real, verified email. -/
def accL : Account :=
  { email := "alice@example.com", telegram_id := some 7,
    telegram_username := none, free_credits := 2, paid_credits := 5,
    total_queries := 4, email_verified := true, last_query_at := none }

/-- Account with `free = 0`, `paid = 1`, as in the spec's spend scenario. -/
def accP : Account :=
  { email := "tg_5@telegram.placeholder", telegram_id := some 5,
    telegram_username := none, free_credits := 0, paid_credits := 1,
    total_queries := 3, email_verified := false, last_query_at := none }

/-- Unused OTP record for `bob@example.com`. -/
def recB : OtpRecord :=
  { id := 0, email := "bob@example.com", otp := "123456", expires_at := 600,
    used := false }

/-!
Theorems.
-/

/-- Looking an account up by chat identity after `update_user_credits`
returns the looked-up pre-state row with the written fields replaced. -/
theorem get_user_by_telegram_id_update (db : List Account) (tid : Nat)
    (f p : Int) (tq now : Nat) :
    get_user_by_telegram_id (update_user_credits db tid f p tq now) tid
      = (get_user_by_telegram_id db tid).map (fun u =>
          { u with free_credits := f, paid_credits := p, total_queries := tq,
                   last_query_at := some now }) := by
  unfold get_user_by_telegram_id update_user_credits
  rw [List.filter_head?, List.filter_head?, List.find?_map]
  have hpf : ((fun a : Account => a.telegram_id == some tid) ∘ (fun a =>
      if a.telegram_id == some tid then
        { a with free_credits := f, paid_credits := p, total_queries := tq,
                 last_query_at := some now }
      else a)) = (fun a : Account => a.telegram_id == some tid) := by
    funext a
    by_cases h : a.telegram_id = some tid <;> simp [Function.comp, h]
  rw [hpf]
  cases hfind : List.find? (fun a : Account => a.telegram_id == some tid) db with
  | none => rfl
  | some a =>
    have ha := List.find?_some hfind
    simp [ha]
    intro h
    exact absurd (by simpa using ha) h

/-- Shared accepted-spend lemma: on an account with a positive balance
and a valid topic, `handle_message` answers with the generated text and
writes back the free-first deduction, the bumped query counter and the
timestamp. -/
theorem handle_message_spend (db : List Account) (tid : Nat)
    (uname : Option String) (topic : String) (api : Except String String)
    (now : Nat) (u : Account)
    (hu : get_user_by_telegram_id db tid = some u)
    (hcmd : startsWithSlash topic = false)
    (hpos : 0 < u.free_credits + u.paid_credits)
    (hlen1 : 5 ≤ topic.length) (hlen2 : topic.length ≤ 500) :
    (handle_message db tid uname topic api now).1
        = .answered (generate_questions api) ∧
    ∃ u', get_user_by_telegram_id
            (handle_message db tid uname topic api now).2 tid = some u' ∧
      (0 < u.free_credits →
        u'.free_credits = u.free_credits - 1 ∧ u'.paid_credits = u.paid_credits) ∧
      (u.free_credits = 0 →
        u'.free_credits = 0 ∧ u'.paid_credits = u.paid_credits - 1) ∧
      u'.free_credits + u'.paid_credits = u.free_credits + u.paid_credits - 1 ∧
      u'.total_queries = u.total_queries + 1 ∧
      u'.last_query_at = some now := by
  have h1 : ¬(u.free_credits + u.paid_credits ≤ 0) := by omega
  have h2 : ¬(topic.length < 5) := by omega
  have h3 : ¬(topic.length > 500) := by omega
  have hmain : handle_message db tid uname topic api now
      = (.answered (generate_questions api),
         update_user_credits db tid
           (if u.free_credits > 0 then (u.free_credits - 1, u.paid_credits)
            else (u.free_credits, u.paid_credits - 1)).1
           (if u.free_credits > 0 then (u.free_credits - 1, u.paid_credits)
            else (u.free_credits, u.paid_credits - 1)).2
           (u.total_queries + 1) now) := by
    simp only [handle_message, hcmd, Bool.false_eq_true, if_false, hu, h1, h2, h3]
  rw [hmain]
  refine ⟨rfl, ?_⟩
  rw [get_user_by_telegram_id_update, hu]
  by_cases hf : u.free_credits > 0
  · rw [if_pos hf]
    refine ⟨_, rfl, fun _ => ⟨rfl, rfl⟩, fun h0 => absurd h0 (by omega), ?_, rfl, rfl⟩
    show u.free_credits - 1 + u.paid_credits = u.free_credits + u.paid_credits - 1
    omega
  · rw [if_neg hf]
    refine ⟨_, rfl, fun h0 => absurd h0 hf, fun h0 => ⟨h0, rfl⟩, ?_, rfl, rfl⟩
    show u.free_credits + (u.paid_credits - 1) = u.free_credits + u.paid_credits - 1
    omega

/-- C2: an accepted generation request on an account with a positive
balance deducts from `free_credits` when it is positive and otherwise
from `paid_credits`, removes exactly one unit in total, increments
`total_queries` by one and stamps `last_query_at`. -/
theorem spend_deducts_free_first (db : List Account) (tid : Nat)
    (uname : Option String) (topic : String) (api : Except String String)
    (now : Nat) (u : Account)
    (hu : get_user_by_telegram_id db tid = some u)
    (hcmd : startsWithSlash topic = false)
    (hpos : 0 < u.free_credits + u.paid_credits)
    (hlen1 : 5 ≤ topic.length) (hlen2 : topic.length ≤ 500) :
    (handle_message db tid uname topic api now).1
        = .answered (generate_questions api) ∧
    ∃ u', get_user_by_telegram_id
            (handle_message db tid uname topic api now).2 tid = some u' ∧
      (0 < u.free_credits →
        u'.free_credits = u.free_credits - 1 ∧ u'.paid_credits = u.paid_credits) ∧
      (u.free_credits = 0 →
        u'.free_credits = 0 ∧ u'.paid_credits = u.paid_credits - 1) ∧
      u'.free_credits + u'.paid_credits = u.free_credits + u.paid_credits - 1 ∧
      u'.total_queries = u.total_queries + 1 ∧
      u'.last_query_at = some now :=
  handle_message_spend db tid uname topic api now u hu hcmd hpos hlen1 hlen2

/-- C2 witness: the account with `free = 0`, `paid = 1` spends into
`free = 0`, `paid = 0`, `total_queries = 4`. -/
theorem spend_deducts_free_first_witness :
    (handle_message [accP] 5 none "some topic" (.ok "Q") 42).1
        = .answered (generate_questions (.ok "Q")) ∧
    ∃ u', get_user_by_telegram_id
            (handle_message [accP] 5 none "some topic" (.ok "Q") 42).2 5 = some u' ∧
      (0 < accP.free_credits →
        u'.free_credits = accP.free_credits - 1 ∧ u'.paid_credits = accP.paid_credits) ∧
      (accP.free_credits = 0 →
        u'.free_credits = 0 ∧ u'.paid_credits = accP.paid_credits - 1) ∧
      u'.free_credits + u'.paid_credits = accP.free_credits + accP.paid_credits - 1 ∧
      u'.total_queries = accP.total_queries + 1 ∧
      u'.last_query_at = some 42 :=
  spend_deducts_free_first [accP] 5 none "some topic" (.ok "Q") 42 accP
    (by decide) (by decide) (by decide) (by decide) (by decide)

/-- C3: a generation request on an account with zero balance is
rejected with the no-credits outcome and the whole store, in
particular the account's credits, query counter and timestamp, is
unchanged. -/
theorem no_credits_rejected (db : List Account) (tid : Nat)
    (uname : Option String) (topic : String) (api : Except String String)
    (now : Nat) (u : Account)
    (hu : get_user_by_telegram_id db tid = some u)
    (hcmd : startsWithSlash topic = false)
    (hzero : u.free_credits + u.paid_credits = 0) :
    handle_message db tid uname topic api now = (.noCredits, db) := by
  have h1 : u.free_credits + u.paid_credits ≤ 0 := by omega
  simp only [handle_message, hcmd, Bool.false_eq_true, if_false, hu, h1, if_true]

/-- C3 witness: the spent-out account (`free = 0`, `paid = 0`) is
rejected with no mutation. -/
theorem no_credits_rejected_witness :
    handle_message [{ accP with paid_credits := 0 }] 5 none "some topic"
        (.ok "Q") 42 = (.noCredits, [{ accP with paid_credits := 0 }]) :=
  no_credits_rejected [{ accP with paid_credits := 0 }] 5 none "some topic"
    (.ok "Q") 42 { accP with paid_credits := 0 } (by decide) (by decide) (by decide)

/-- C9: when the generation call fails, the handler still deducts
exactly one credit and surfaces the failure text in place of a
question set. -/
theorem spend_on_generation_failure (db : List Account) (tid : Nat)
    (uname : Option String) (topic e : String) (now : Nat) (u : Account)
    (hu : get_user_by_telegram_id db tid = some u)
    (hcmd : startsWithSlash topic = false)
    (hpos : 0 < u.free_credits + u.paid_credits)
    (hlen1 : 5 ≤ topic.length) (hlen2 : topic.length ≤ 500) :
    (handle_message db tid uname topic (.error e) now).1
        = .answered ("Error generating questions: " ++ e) ∧
    ∃ u', get_user_by_telegram_id
            (handle_message db tid uname topic (.error e) now).2 tid = some u' ∧
      u'.free_credits + u'.paid_credits = u.free_credits + u.paid_credits - 1 ∧
      u'.total_queries = u.total_queries + 1 := by
  obtain ⟨ho, u', hget, -, -, hsum, htq, -⟩ :=
    handle_message_spend db tid uname topic (.error e) now u hu hcmd hpos hlen1 hlen2
  exact ⟨ho, u', hget, hsum, htq⟩

/-- Record selected by `verify_otp`'s query: it belongs to the table
and is unused (the select filters on `used = False`). -/
theorem otp_head_matched {db : List OtpRecord} {email code : String}
    {r : OtpRecord}
    (h : (db.filter (otp_matches email code)).head? = some r) :
    r ∈ db ∧ r.used = false := by
  rw [List.filter_head?] at h
  refine ⟨List.mem_of_find?_eq_some h, ?_⟩
  have h2 := List.find?_some h
  unfold otp_matches at h2
  simp only [Bool.and_eq_true, beq_iff_eq] at h2
  exact h2.2

/-- C4: `verify_otp` never clears a `used` flag (rows keep their `id`
and `used` only goes from `false` to `true`); a successful call selects
an unused record and marks exactly that record used; and a record that
is already used is never the one selected, so a verify call can never
consume it again. -/
theorem otp_single_use (db : List OtpRecord) (email code : String) (now : Nat) :
    List.Forall₂ (fun x y => y.id = x.id ∧ (x.used = true → y.used = true)) db
      (verify_otp db email code now).2 ∧
    ((verify_otp db email code now).1 = true →
      ∃ r, (db.filter (otp_matches email code)).head? = some r ∧
        r.used = false ∧
        { r with used := true } ∈ (verify_otp db email code now).2) ∧
    (∀ r ∈ db, r.used = true →
      (db.filter (otp_matches email code)).head? ≠ some r) := by
  have hrefl : List.Forall₂
      (fun x y : OtpRecord => y.id = x.id ∧ (x.used = true → y.used = true)) db db :=
    List.forall₂_same.mpr (fun x _ => ⟨rfl, fun h => h⟩)
  cases hh : (db.filter (otp_matches email code)).head? with
  | none =>
    have hv : verify_otp db email code now = (false, db) := by
      unfold verify_otp; rw [hh]
    rw [hv]
    exact ⟨hrefl, fun habs => by simp at habs, fun r _ _ => by simp⟩
  | some r =>
    obtain ⟨hmem, hused⟩ := otp_head_matched hh
    have hneq : ∀ r' ∈ db, r'.used = true → some r ≠ some r' := by
      intro r' _ hu' hco
      have hrr : r = r' := by injection hco
      rw [← hrr, hused] at hu'
      exact Bool.noConfusion hu'
    by_cases hexp : now > r.expires_at
    · have hv : verify_otp db email code now = (false, db) := by
        unfold verify_otp; rw [hh]; exact if_pos hexp
      rw [hv]
      exact ⟨hrefl, fun habs => by simp at habs, hneq⟩
    · have hv : verify_otp db email code now
          = (true, db.map (fun x => if x.id == r.id then { x with used := true } else x)) := by
        unfold verify_otp; rw [hh]; exact if_neg hexp
      rw [hv]
      refine ⟨?_, fun _ => ⟨r, rfl, hused, ?_⟩, hneq⟩
      · rw [List.forall₂_map_right_iff]
        refine List.forall₂_same.mpr (fun x _ => ?_)
        by_cases hx : x.id = r.id
        · have hb : (x.id == r.id) = true := by simp [hx]
          exact ⟨by simp [hb, hx], by simp [hb]⟩
        · have hb : (x.id == r.id) = false := by simp [hx]
          exact ⟨by simp [hb], by simp [hb]⟩
      · have hm := List.mem_map_of_mem
          (fun x => if x.id == r.id then { x with used := true } else x) hmem
        simpa using hm

/-- C4 witness: against a table holding only an already-used record,
that record is never the one selected by the verify query. -/
theorem otp_single_use_witness :
    ([{ recB with used := true }].filter
        (otp_matches "bob@example.com" "123456")).head?
      ≠ some { recB with used := true } :=
  (otp_single_use [{ recB with used := true }] "bob@example.com" "123456" 0).2.2
    { recB with used := true } (by decide) (by decide)

/-- C5: when the verify query selects record `r` (necessarily unused),
the call fails and leaves the whole table, in particular `r.used`,
unchanged whenever `now > expires_at`, and succeeds — marking `r` used —
whenever `now ≤ expires_at`. -/
theorem otp_expiry (db : List OtpRecord) (email code : String) (now : Nat)
    (r : OtpRecord)
    (h : (db.filter (otp_matches email code)).head? = some r) :
    r.used = false ∧
    (now > r.expires_at → verify_otp db email code now = (false, db)) ∧
    (now ≤ r.expires_at →
      (verify_otp db email code now).1 = true ∧
      { r with used := true } ∈ (verify_otp db email code now).2) := by
  obtain ⟨hmem, hused⟩ := otp_head_matched h
  refine ⟨hused, fun hx => ?_, fun hx => ?_⟩
  · unfold verify_otp; rw [h]; exact if_pos hx
  · have hv : verify_otp db email code now
        = (true, db.map (fun x => if x.id == r.id then { x with used := true } else x)) := by
      unfold verify_otp; rw [h]; exact if_neg (by omega)
    rw [hv]
    refine ⟨rfl, ?_⟩
    have hm := List.mem_map_of_mem
      (fun x => if x.id == r.id then { x with used := true } else x) hmem
    simpa using hm

/-- C5 witness: the unused record expiring at 600 fails at time 601 and
succeeds at time 599. -/
theorem otp_expiry_witness :
    (recB.used = false ∧
      (601 > recB.expires_at →
        verify_otp [recB] "bob@example.com" "123456" 601 = (false, [recB])) ∧
      (601 ≤ recB.expires_at →
        (verify_otp [recB] "bob@example.com" "123456" 601).1 = true ∧
        { recB with used := true } ∈ (verify_otp [recB] "bob@example.com" "123456" 601).2)) ∧
    (recB.used = false ∧
      (599 > recB.expires_at →
        verify_otp [recB] "bob@example.com" "123456" 599 = (false, [recB])) ∧
      (599 ≤ recB.expires_at →
        (verify_otp [recB] "bob@example.com" "123456" 599).1 = true ∧
        { recB with used := true } ∈ (verify_otp [recB] "bob@example.com" "123456" 599).2)) :=
  ⟨otp_expiry [recB] "bob@example.com" "123456" 601 recB (by decide),
   otp_expiry [recB] "bob@example.com" "123456" 599 recB (by decide)⟩

/-- C7: in the email step, when the submitted address is syntactically
valid and matches an available account but OTP persistence or the
notifier send fails, the conversation stays in `WAITING_FOR_EMAIL` and
the attempt is reported as failed — including when `save_otp` succeeded
(the record is in the table) but the send then failed. -/
theorem issuance_failure_stays (db : List Account) (otps : List OtpRecord)
    (tid : Nat) (email : String) (newOtp : OtpRecord) (saveOk sendOk : Bool)
    (u : Account)
    (hat : containsChar email '@' = true)
    (hdot : containsChar email '.' = true)
    (hu : get_user_by_email db email = some u)
    (havail : (truthy_tid u.telegram_id && u.telegram_id != some tid) = false)
    (hfail : (saveOk && sendOk) = false) :
    (receive_email_for_link db otps tid email newOtp saveOk sendOk).1
        = ConvState.waiting_for_email ∧
    (receive_email_for_link db otps tid email newOtp saveOk sendOk).2.2
        = EmailStepResult.sendFailed ∧
    (saveOk = true →
      (receive_email_for_link db otps tid email newOtp saveOk sendOk).2.1
          = otps ++ [newOtp]) := by
  have hv : receive_email_for_link db otps tid email newOtp saveOk sendOk
      = (.waiting_for_email, if saveOk then otps ++ [newOtp] else otps,
         .sendFailed) := by
    simp only [receive_email_for_link, hat, hdot, hu, havail, hfail,
      Bool.not_true, Bool.false_or, Bool.or_false, Bool.false_eq_true, if_false]
  rw [hv]
  refine ⟨rfl, rfl, fun hs => ?_⟩
  simp [hs]

/-- C7 witness: the web account is found and available, `save_otp`
succeeds, the send fails; the conversation stays in the email step,
reports failure, and the record is nevertheless in the table. -/
theorem issuance_failure_stays_witness :
    (receive_email_for_link [accW] [] 1 "bob@example.com" recB true false).1
        = ConvState.waiting_for_email ∧
    (receive_email_for_link [accW] [] 1 "bob@example.com" recB true false).2.2
        = EmailStepResult.sendFailed ∧
    (true = true →
      (receive_email_for_link [accW] [] 1 "bob@example.com" recB true false).2.1
          = [] ++ [recB]) :=
  issuance_failure_stays [accW] [] 1 "bob@example.com" recB true false accW
    (by decide) (by decide) (by decide) (by decide) (by decide)

/-- C8: when the chat identity's account carries a non-placeholder,
verified email, issuing `/link` any number of times in a row reports
the existing binding every time, always returns to the idle
conversation state, and leaves the account store untouched. -/
theorem link_idempotent (db : List Account) (tid : Nat) (n : Nat) (u : Account)
    (hu : get_user_by_telegram_id db tid = some u)
    (hnp : endsWithStr u.email placeholderDomain = false)
    (_hver : u.email_verified = true) :
    link_command db tid = (.alreadyLinked u.email, .idle, db) ∧
    link_command_iter n db tid
      = (db, List.replicate n (LinkCmdResult.alreadyLinked u.email)) := by
  have h1 : link_command db tid = (.alreadyLinked u.email, .idle, db) := by
    simp [link_command, hu, hnp]
  refine ⟨h1, ?_⟩
  induction n with
  | zero => rfl
  | succ n ih =>
    simp [link_command_iter, h1, ih, List.replicate_succ]

/-- C8 witness: the linked, verified account reports its binding on two
consecutive `/link` calls with no store mutation. -/
theorem link_idempotent_witness :
    link_command [accL] 7 = (.alreadyLinked accL.email, .idle, [accL]) ∧
    link_command_iter 2 [accL] 7
      = ([accL], List.replicate 2 (LinkCmdResult.alreadyLinked accL.email)) :=
  link_idempotent [accL] 7 2 accL (by decide) (by decide) (by decide)

/-- Once the fuel covers the value, `pyDigits` computes the standard
base-10 digit expansion. -/
theorem pyDigits_eq_digits : ∀ fuel n : Nat, n ≤ fuel →
    pyDigits fuel n = Nat.digits 10 n := by
  intro fuel
  induction fuel with
  | zero =>
    intro n hn
    have h0 : n = 0 := by omega
    subst h0
    simp [pyDigits]
  | succ fuel ih =>
    intro n hn
    by_cases h0 : n = 0
    · subst h0; simp [pyDigits]
    · have hdiv : n / 10 < n := Nat.div_lt_self (Nat.pos_of_ne_zero h0) (by norm_num)
      simp only [pyDigits]
      rw [if_neg h0,
        Nat.digits_def' (by norm_num : (1:ℕ) < 10) (Nat.pos_of_ne_zero h0),
        ih (n / 10) (by omega)]

/-- Decimal rendering of `generate_otp` in terms of `Nat.digits`. -/
theorem generate_otp_eq_digits {n : Nat} (hn : n ≠ 0) :
    generate_otp n
      = ⟨(Nat.digits 10 n).reverse.map (fun d => Char.ofNat (48 + d))⟩ := by
  unfold generate_otp natDecimalString
  rw [if_neg hn, pyDigits_eq_digits n n le_rfl]

/-- The rendering is injective on nonzero numbers: distinct draws give
distinct codes. -/
theorem generate_otp_injOn : Set.InjOn generate_otp {n : ℕ | n ≠ 0} := by
  intro m hm n hn hmn
  have hm0 : m ≠ 0 := hm
  have hn0 : n ≠ 0 := hn
  rw [generate_otp_eq_digits hm0, generate_otp_eq_digits hn0] at hmn
  have hl : (Nat.digits 10 m).reverse.map (fun d => Char.ofNat (48 + d))
      = (Nat.digits 10 n).reverse.map (fun d => Char.ofNat (48 + d)) :=
    congrArg String.data hmn
  have hrec : ∀ k : ℕ,
      ((Nat.digits 10 k).reverse.map (fun d => Char.ofNat (48 + d))).map
          (fun c => c.toNat - 48)
        = (Nat.digits 10 k).reverse := by
    intro k
    rw [List.map_map]
    have hid : ∀ d ∈ (Nat.digits 10 k).reverse,
        ((fun c : Char => c.toNat - 48) ∘ (fun d => Char.ofNat (48 + d))) d = d := by
      intro d hd
      have hd10 : d < 10 := Nat.digits_lt_base (by norm_num) (List.mem_reverse.mp hd)
      interval_cases d <;> rfl
    rw [List.map_congr_left hid, List.map_id']
  have h2 : (Nat.digits 10 m).reverse = (Nat.digits 10 n).reverse := by
    rw [← hrec m, ← hrec n, hl]
  have h3 : Nat.digits 10 m = Nat.digits 10 n := by
    have h4 := congrArg List.reverse h2
    simpa using h4
  calc m = Nat.ofDigits 10 (Nat.digits 10 m) := (Nat.ofDigits_digits 10 m).symm
    _ = Nat.ofDigits 10 (Nat.digits 10 n) := by rw [h3]
    _ = n := Nat.ofDigits_digits 10 n

/-- C10: a draw from `randint(100000, 999999)` renders as a string of
exactly six ASCII digits whose first character is never `'0'`, and the
code space — the image of the whole draw range under the rendering —
has exactly 900000 values. -/
theorem generate_otp_format (n : Nat) (h1 : 100000 ≤ n) (h2 : n ≤ 999999) :
    (generate_otp n).length = 6 ∧
    (∀ c ∈ (generate_otp n).data, c.isDigit = true) ∧
    (∃ c, (generate_otp n).data.head? = some c ∧ c ≠ '0') ∧
    ((Finset.Icc 100000 999999).image generate_otp).card = 900000 := by
  have hne : n ≠ 0 := by omega
  have hstr := generate_otp_eq_digits hne
  have hp1 : (10:ℕ) ^ 5 ≤ n := by norm_num; omega
  have hp2 : n < 10 ^ (5 + 1) := by norm_num; omega
  have hlog : Nat.log 10 n = 5 := Nat.log_eq_of_pow_le_of_lt_pow hp1 hp2
  refine ⟨?_, ?_, ?_, ?_⟩
  · rw [hstr]
    show ((Nat.digits 10 n).reverse.map (fun d => Char.ofNat (48 + d))).length = 6
    rw [List.length_map, List.length_reverse,
      Nat.digits_len 10 n (by norm_num) hne, hlog]
  · rw [hstr]
    intro c hc
    obtain ⟨d, hd, rfl⟩ := List.mem_map.mp hc
    have hd10 : d < 10 := Nat.digits_lt_base (by norm_num) (List.mem_reverse.mp hd)
    interval_cases d <;> decide
  · rw [hstr]
    have hnil : Nat.digits 10 n ≠ [] := Nat.digits_ne_nil_iff_ne_zero.mpr hne
    have hlast : (Nat.digits 10 n).getLast hnil ≠ 0 := Nat.getLast_digit_ne_zero 10 hne
    have hd10 : (Nat.digits 10 n).getLast hnil < 10 :=
      Nat.digits_lt_base (by norm_num) (List.getLast_mem hnil)
    refine ⟨Char.ofNat (48 + (Nat.digits 10 n).getLast hnil), ?_, ?_⟩
    · show ((Nat.digits 10 n).reverse.map (fun d => Char.ofNat (48 + d))).head? = _
      rw [List.head?_map, List.head?_reverse, List.getLast?_eq_getLast _ hnil]
      rfl
    · have hd1 : 1 ≤ (Nat.digits 10 n).getLast hnil := Nat.pos_of_ne_zero hlast
      set d := (Nat.digits 10 n).getLast hnil with hdd
      interval_cases d <;> decide
  · have hsub : ↑(Finset.Icc 100000 999999) ⊆ {n : ℕ | n ≠ 0} := by
      intro x hx
      simp only [Finset.coe_Icc, Set.mem_Icc] at hx
      simp only [Set.mem_setOf_eq]
      omega
    rw [Finset.card_image_of_injOn (generate_otp_injOn.mono hsub), Nat.card_Icc]

/-- C10 witness: the draw 123456 renders as a six-digit code with a
nonzero leading digit, over a 900000-value draw space. -/
theorem generate_otp_format_witness :
    (generate_otp 123456).length = 6 ∧
    (∀ c ∈ (generate_otp 123456).data, c.isDigit = true) ∧
    (∃ c, (generate_otp 123456).data.head? = some c ∧ c ≠ '0') ∧
    ((Finset.Icc 100000 999999).image generate_otp).card = 900000 :=
  generate_otp_format 123456 (by decide) (by decide)

/-- C1 counterexample: the merge does not conserve credits for every
pair of rows.  First conjunct: when the submitted email is the
chat-bound row's own placeholder address, the row is deleted and the
subsequent update matches nothing, so the account and its one credit
vanish.  Second conjunct: when the chat-bound row has a
non-placeholder email, it survives while its credits are also added to
the web row, so the total grows from 10 to 17. -/
theorem merge_conservation_cex :
    (merge_on_link [accT] 1 none "tg_1@telegram.placeholder" = [] ∧
      totalCredits [accT] = 1) ∧
    (totalCredits (merge_on_link [accL, accW] 7 none "bob@example.com") = 17 ∧
      totalCredits [accL, accW] = 10) := by
  decide

/-- C1 (amended): for every pair of distinct rows where the chat-bound
account `T` has a placeholder email, a successful merge into the
email-bound account `W` conserves credits: the surviving row carries
exactly the summed balances and the chat binding, and no row with `T`'s
email remains. -/
theorem merge_conservation (T W : Account) (tid : Nat) (uname : Option String)
    (email : String)
    (hT : T.telegram_id = some tid)
    (hW : W.email = email)
    (hTW : T.email ≠ email)
    (hWid : W.telegram_id ≠ some tid)
    (hph : endsWithStr T.email placeholderDomain = true) :
    totalCredits (merge_on_link [T, W] tid uname email)
        = totalCredits [T, W] ∧
    (∃ W', get_user_by_email (merge_on_link [T, W] tid uname email) email
          = some W' ∧
      W'.free_credits = W.free_credits + T.free_credits ∧
      W'.paid_credits = W.paid_credits + T.paid_credits ∧
      W'.telegram_id = some tid) ∧
    (∀ a ∈ merge_on_link [T, W] tid uname email, a.email ≠ T.email) := by
  have hbT : (T.telegram_id == some tid) = true := by simp [hT]
  have hbTe : (T.email == email) = false := by simp [hTW]
  have hbW : (W.email == email) = true := by simp [hW]
  have hbWid : (W.telegram_id == some tid) = false := by simp [hWid]
  have step1 : get_user_by_telegram_id [T, W] tid = some T := by
    simp [get_user_by_telegram_id, List.filter_cons, hbT]
  have step2 : get_user_by_email [T, W] email = some W := by
    simp [get_user_by_email, List.filter_cons, hbTe, hbW]
  have step3 : delete_user_by_telegram_id [T, W] tid = [W] := by
    simp [delete_user_by_telegram_id, List.filter_cons, hbT, hbWid]
  have step5 : update_web_user_merge [W] email tid uname
      (W.free_credits + T.free_credits) (W.paid_credits + T.paid_credits)
      = [{ W with
            telegram_id := some tid, telegram_username := uname,
            free_credits := W.free_credits + T.free_credits,
            paid_credits := W.paid_credits + T.paid_credits }] := by
    simp [update_web_user_merge, hbW]
    intro hcon
    exact absurd hW hcon
  have step4 : merge_on_link [T, W] tid uname email
      = [{ W with
            telegram_id := some tid, telegram_username := uname,
            free_credits := W.free_credits + T.free_credits,
            paid_credits := W.paid_credits + T.paid_credits }] := by
    unfold merge_on_link
    rw [step1, step2]
    simp [hph, step3, step5]
  rw [step4]
  refine ⟨?_, ⟨{ W with
      telegram_id := some tid, telegram_username := uname,
      free_credits := W.free_credits + T.free_credits,
      paid_credits := W.paid_credits + T.paid_credits }, ?_, rfl, rfl, rfl⟩, ?_⟩
  · simp [totalCredits]
    ring
  · simp [get_user_by_email, List.filter_cons, hbW]
  · intro a ha hcon
    simp only [List.mem_singleton] at ha
    subst ha
    exact hTW (hcon.symm.trans hW)

/-- C1 witness for the amended theorem: the spec scenario — placeholder
chat account `(1, 0)` merged into `bob@example.com` `(0, 3)` — yields a
surviving row `(1, 3)` bound to the chat identity, with the placeholder
row gone. -/
theorem merge_conservation_witness :
    totalCredits (merge_on_link [accT, accW] 1 none "bob@example.com")
        = totalCredits [accT, accW] ∧
    (∃ W', get_user_by_email (merge_on_link [accT, accW] 1 none "bob@example.com")
          "bob@example.com" = some W' ∧
      W'.free_credits = accW.free_credits + accT.free_credits ∧
      W'.paid_credits = accW.paid_credits + accT.paid_credits ∧
      W'.telegram_id = some 1) ∧
    (∀ a ∈ merge_on_link [accT, accW] 1 none "bob@example.com",
      a.email ≠ accT.email) :=
  merge_conservation accT accW 1 none "bob@example.com"
    (by decide) (by decide) (by decide) (by decide) (by decide)

/-- C9 witness: a failing generation on the `free = 0`, `paid = 1`
account surfaces the error text and still spends the credit. -/
theorem spend_on_generation_failure_witness :
    (handle_message [accP] 5 none "some topic" (.error "boom") 42).1
        = .answered ("Error generating questions: " ++ "boom") ∧
    ∃ u', get_user_by_telegram_id
            (handle_message [accP] 5 none "some topic" (.error "boom") 42).2 5 = some u' ∧
      u'.free_credits + u'.paid_credits = accP.free_credits + accP.paid_credits - 1 ∧
      u'.total_queries = accP.total_queries + 1 :=
  spend_on_generation_failure [accP] 5 none "some topic" "boom" 42 accP
    (by decide) (by decide) (by decide) (by decide) (by decide)

/-- Unfolding of `runSchedule` on a nonempty schedule. -/
theorem runSchedule_cons (sys : SpendSystem) (i : Nat) (rest : List Nat) :
    runSchedule sys (i :: rest) = runSchedule (stepProc sys i) rest := rfl

/-- Spend-system invariant: the account balances are non-negative and
every pending write snapshot passed the credit check when it was read. -/
def SpendInv (sys : SpendSystem) : Prop :=
  0 ≤ sys.acc_free ∧ 0 ≤ sys.acc_paid ∧
  ∀ s ∈ sys.procs, ∀ f p tq, s = ProcState.writing f p tq →
    0 ≤ f ∧ 0 ≤ p ∧ 0 < f + p

/-- One store access preserves the spend-system invariant. -/
theorem spendInv_step {sys : SpendSystem} (h : SpendInv sys) (i : Nat) :
    SpendInv (stepProc sys i) := by
  obtain ⟨hf, hp, hw⟩ := h
  cases hs : sys.procs.get? i with
  | none =>
    have hv : stepProc sys i = sys := by unfold stepProc; rw [hs]
    rw [hv]; exact ⟨hf, hp, hw⟩
  | some s =>
    cases s with
    | ready =>
      by_cases hb : sys.acc_free + sys.acc_paid ≤ 0
      · have hv : stepProc sys i
            = { sys with procs := sys.procs.set i (.finished false) } := by
          unfold stepProc; rw [hs]; exact if_pos hb
        rw [hv]
        refine ⟨hf, hp, fun s hs' f p tq heq => ?_⟩
        rcases List.mem_or_eq_of_mem_set hs' with h' | h'
        · exact hw s h' f p tq heq
        · rw [h'] at heq; cases heq
      · have hv : stepProc sys i
            = { sys with procs :=
                sys.procs.set i (.writing sys.acc_free sys.acc_paid sys.acc_tq) } := by
          unfold stepProc; rw [hs]; exact if_neg hb
        rw [hv]
        refine ⟨hf, hp, fun s hs' f p tq heq => ?_⟩
        rcases List.mem_or_eq_of_mem_set hs' with h' | h'
        · exact hw s h' f p tq heq
        · rw [h'] at heq
          injection heq with e1 e2 e3
          subst e1; subst e2
          exact ⟨hf, hp, by omega⟩
    | writing f0 p0 tq0 =>
      have hmem : ProcState.writing f0 p0 tq0 ∈ sys.procs := List.get?_mem hs
      obtain ⟨hf0, hp0, hfp0⟩ := hw _ hmem f0 p0 tq0 rfl
      have hv : stepProc sys i
          = { acc_free := (if f0 > 0 then (f0 - 1, p0) else (f0, p0 - 1)).1,
              acc_paid := (if f0 > 0 then (f0 - 1, p0) else (f0, p0 - 1)).2,
              acc_tq := tq0 + 1,
              procs := sys.procs.set i (.finished true) } := by
        unfold stepProc; rw [hs]
      rw [hv]
      refine ⟨?_, ?_, fun s hs' f p tq heq => ?_⟩
      · by_cases hfr : f0 > 0
        · rw [if_pos hfr]; show (0:Int) ≤ f0 - 1; omega
        · rw [if_neg hfr]; show (0:Int) ≤ f0; omega
      · by_cases hfr : f0 > 0
        · rw [if_pos hfr]; show (0:Int) ≤ p0; omega
        · rw [if_neg hfr]; show (0:Int) ≤ p0 - 1; omega
      · rcases List.mem_or_eq_of_mem_set hs' with h' | h'
        · exact hw s h' f p tq heq
        · rw [h'] at heq; cases heq
    | finished b =>
      have hv : stepProc sys i = sys := by unfold stepProc; rw [hs]
      rw [hv]; exact ⟨hf, hp, hw⟩

/-- Any schedule preserves the spend-system invariant. -/
theorem spendInv_run {sys : SpendSystem} (h : SpendInv sys) (sched : List Nat) :
    SpendInv (runSchedule sys sched) := by
  induction sched generalizing sys with
  | nil => exact h
  | cons i rest ih =>
    rw [runSchedule_cons]
    exact ih (spendInv_step h i)

/-- Effect of overwriting a known slot on the success count. -/
theorem successCount_set (l : List ProcState) (i : Nat) (a b : ProcState)
    (h : l.get? i = some a) :
    (l.set i b).countP (fun s => s == ProcState.finished true)
      = l.countP (fun s => s == ProcState.finished true)
        - (if (a == ProcState.finished true) = true then 1 else 0)
        + (if (b == ProcState.finished true) = true then 1 else 0) := by
  have hi : i < l.length := by
    by_contra hh
    rw [List.get?_eq_none.mpr (by omega)] at h
    cases h
  have hgid : l[i]? = some a := by rw [← List.get?_eq_getElem?]; exact h
  have hga : l[i] = a := by
    have h2 : l[i]? = some l[i] := List.getElem?_eq_getElem hi
    rw [h2] at hgid
    exact Option.some.inj hgid
  rw [List.countP_set _ _ _ _ hi, hga]

/-- Serialized execution: starting from a block of `n` untouched
requests, each one's read and write run back to back; exactly
`min n balance` of them succeed and the balance drops by that much. -/
theorem seqSched_run (n : Nat) : ∀ (start : Nat) (sys : SpendSystem),
    (∀ j, start ≤ j → j < start + n → sys.procs.get? j = some ProcState.ready) →
    0 ≤ sys.acc_free → 0 ≤ sys.acc_paid →
    successCount (runSchedule sys (seqSched start n))
        = successCount sys + min n (sys.acc_free + sys.acc_paid).toNat ∧
    (runSchedule sys (seqSched start n)).acc_free
        + (runSchedule sys (seqSched start n)).acc_paid
      = sys.acc_free + sys.acc_paid - min n (sys.acc_free + sys.acc_paid).toNat := by
  induction n with
  | zero =>
    intro start sys hready hf hp
    refine ⟨?_, ?_⟩ <;> simp [seqSched, runSchedule]
  | succ n ih =>
    intro start sys hready hf hp
    have hr0 : sys.procs.get? start = some .ready := hready start le_rfl (by omega)
    have hsched : seqSched start (n + 1) = start :: start :: seqSched (start + 1) n := rfl
    by_cases hb : sys.acc_free + sys.acc_paid ≤ 0
    · have hv1 : stepProc sys start
          = { sys with procs := sys.procs.set start (.finished false) } := by
        unfold stepProc; rw [hr0]; exact if_pos hb
      have hg1 : (sys.procs.set start (ProcState.finished false)).get? start
          = some (.finished false) := by
        rw [List.get?_set_eq, hr0]; rfl
      have hv2 : stepProc { sys with procs := sys.procs.set start (.finished false) } start
          = { sys with procs := sys.procs.set start (.finished false) } := by
        unfold stepProc; rw [hg1]
      have hrun : runSchedule sys (seqSched start (n + 1))
          = runSchedule { sys with procs := sys.procs.set start (.finished false) }
              (seqSched (start + 1) n) := by
        rw [hsched, runSchedule_cons, hv1, runSchedule_cons, hv2]
      have hready1 : ∀ j, start + 1 ≤ j → j < (start + 1) + n →
          ({ sys with procs := sys.procs.set start (.finished false) } : SpendSystem).procs.get? j
            = some ProcState.ready := by
        intro j h1 h2
        show (sys.procs.set start (ProcState.finished false)).get? j = _
        rw [List.get?_set_ne _ _ (by omega)]
        exact hready j (by omega) (by omega)
      obtain ⟨ihc, ihb⟩ := ih (start + 1)
        { sys with procs := sys.procs.set start (.finished false) } hready1 hf hp
      have hsc1 : successCount { sys with procs := sys.procs.set start (.finished false) }
          = successCount sys := by
        show (sys.procs.set start (ProcState.finished false)).countP _ = _
        rw [successCount_set _ _ _ _ hr0]
        simp [successCount]
      have hc0 : (sys.acc_free + sys.acc_paid).toNat = 0 := by omega
      refine ⟨?_, ?_⟩
      · rw [hrun, ihc, hsc1, hc0]
        simp
      · rw [hrun, ihb, hc0]
        simp
    · have hv1 : stepProc sys start
          = { sys with
              procs := sys.procs.set start
                  (.writing sys.acc_free sys.acc_paid sys.acc_tq) } := by
        unfold stepProc; rw [hr0]; exact if_neg hb
      have hg1 : (sys.procs.set start
            (ProcState.writing sys.acc_free sys.acc_paid sys.acc_tq)).get? start
          = some (.writing sys.acc_free sys.acc_paid sys.acc_tq) := by
        rw [List.get?_set_eq, hr0]; rfl
      have hv2 : stepProc
          { sys with
            procs := sys.procs.set start
                (.writing sys.acc_free sys.acc_paid sys.acc_tq) } start
          = { acc_free := (if sys.acc_free > 0 then (sys.acc_free - 1, sys.acc_paid)
                           else (sys.acc_free, sys.acc_paid - 1)).1,
              acc_paid := (if sys.acc_free > 0 then (sys.acc_free - 1, sys.acc_paid)
                           else (sys.acc_free, sys.acc_paid - 1)).2,
              acc_tq := sys.acc_tq + 1,
              procs := sys.procs.set start (.finished true) } := by
        unfold stepProc
        rw [hg1]
        simp [List.set_set]
      have hrun : runSchedule sys (seqSched start (n + 1))
          = runSchedule
              { acc_free := (if sys.acc_free > 0 then (sys.acc_free - 1, sys.acc_paid)
                             else (sys.acc_free, sys.acc_paid - 1)).1,
                acc_paid := (if sys.acc_free > 0 then (sys.acc_free - 1, sys.acc_paid)
                             else (sys.acc_free, sys.acc_paid - 1)).2,
                acc_tq := sys.acc_tq + 1,
                procs := sys.procs.set start (.finished true) }
              (seqSched (start + 1) n) := by
        rw [hsched, runSchedule_cons, hv1, runSchedule_cons, hv2]
      have hnp : (if sys.acc_free > 0 then (sys.acc_free - 1, sys.acc_paid)
                  else (sys.acc_free, sys.acc_paid - 1)).1
               + (if sys.acc_free > 0 then (sys.acc_free - 1, sys.acc_paid)
                  else (sys.acc_free, sys.acc_paid - 1)).2
          = sys.acc_free + sys.acc_paid - 1 ∧
          0 ≤ (if sys.acc_free > 0 then (sys.acc_free - 1, sys.acc_paid)
               else (sys.acc_free, sys.acc_paid - 1)).1 ∧
          0 ≤ (if sys.acc_free > 0 then (sys.acc_free - 1, sys.acc_paid)
               else (sys.acc_free, sys.acc_paid - 1)).2 := by
        by_cases hfr : sys.acc_free > 0
        · rw [if_pos hfr]
          refine ⟨?_, ?_, ?_⟩ <;> simp <;> omega
        · rw [if_neg hfr]
          refine ⟨?_, ?_, ?_⟩ <;> simp <;> omega
      have hready1 : ∀ j, start + 1 ≤ j → j < (start + 1) + n →
          (sys.procs.set start (ProcState.finished true)).get? j
            = some ProcState.ready := by
        intro j h1 h2
        rw [List.get?_set_ne _ _ (by omega)]
        exact hready j (by omega) (by omega)
      obtain ⟨ihc, ihb⟩ := ih (start + 1)
        { acc_free := (if sys.acc_free > 0 then (sys.acc_free - 1, sys.acc_paid)
                       else (sys.acc_free, sys.acc_paid - 1)).1,
          acc_paid := (if sys.acc_free > 0 then (sys.acc_free - 1, sys.acc_paid)
                       else (sys.acc_free, sys.acc_paid - 1)).2,
          acc_tq := sys.acc_tq + 1,
          procs := sys.procs.set start (.finished true) }
        (fun j h1 h2 => hready1 j h1 h2) hnp.2.1 hnp.2.2
      have hsc1 : (sys.procs.set start (ProcState.finished true)).countP
            (fun s => s == ProcState.finished true)
          = successCount sys + 1 := by
        rw [successCount_set _ _ _ _ hr0]
        simp [successCount]
      refine ⟨?_, ?_⟩
      · rw [hrun, ihc]
        show (sys.procs.set start (ProcState.finished true)).countP _
            + min n _ = _
        rw [hsc1, hnp.1]
        omega
      · rw [hrun, ihb]
        rw [hnp.1]
        omega

/-- C6 counterexample: with balance `(0, 1)` (total `c = 1`) and `N = 2`
concurrent spend attempts, the interleaving read-read-write-write lets
both attempts succeed, contradicting "exactly `c` succeed". -/
theorem spend_overdraw_cex :
    successCount (runSchedule (initSystem 0 1 0 2) [0, 1, 0, 1]) = 2 := by
  decide

/-- C6 (amended): under the code's separate read and write store calls,
`free_credits` and `paid_credits` stay non-negative under every
interleaving, and when the `N` attempts are serialized exactly
`min N c` of them succeed, leaving balance `c - min N c` (0 when
`c ≤ N`); but under non-serialized interleavings more than `c` attempts
can succeed. -/
theorem spend_nonneg_and_serialized (f p : Int) (tq N : Nat)
    (hf : 0 ≤ f) (hp : 0 ≤ p) :
    (∀ sched : List Nat,
      0 ≤ (runSchedule (initSystem f p tq N) sched).acc_free ∧
      0 ≤ (runSchedule (initSystem f p tq N) sched).acc_paid) ∧
    successCount (runSchedule (initSystem f p tq N) (seqSched 0 N))
        = min N (f + p).toNat ∧
    (runSchedule (initSystem f p tq N) (seqSched 0 N)).acc_free
        + (runSchedule (initSystem f p tq N) (seqSched 0 N)).acc_paid
      = f + p - min N (f + p).toNat := by
  have hinv : SpendInv (initSystem f p tq N) := by
    refine ⟨hf, hp, fun s hs f' p' tq' heq => ?_⟩
    rw [List.eq_of_mem_replicate hs] at heq
    cases heq
  have hready : ∀ j, 0 ≤ j → j < 0 + N →
      (initSystem f p tq N).procs.get? j = some ProcState.ready := by
    intro j _ hj
    show (List.replicate N ProcState.ready).get? j = _
    rw [List.get?_eq_getElem?, List.getElem?_replicate, if_pos (by omega)]
  have hzero : successCount (initSystem f p tq N) = 0 := by
    show (List.replicate N ProcState.ready).countP _ = 0
    rw [List.countP_eq_zero]
    intro s hs
    rw [List.eq_of_mem_replicate hs]
    decide
  obtain ⟨hc, hbal⟩ := seqSched_run N 0 (initSystem f p tq N) hready hf hp
  refine ⟨fun sched => ?_, ?_, ?_⟩
  · obtain ⟨h1, h2, -⟩ := spendInv_run hinv sched
    exact ⟨h1, h2⟩
  · rw [hc, hzero]
    simp [initSystem]
  · rw [hbal]
    simp [initSystem]

/-- C6 witness for the amended theorem: balance `(0, 1)`, two
serialized attempts: one succeeds, one is rejected, final balance 0;
and the read-read-write-write interleaving keeps balances
non-negative. -/
theorem spend_nonneg_and_serialized_witness :
    ((0:Int) ≤ (runSchedule (initSystem 0 1 0 2) [0, 1, 0, 1]).acc_free ∧
      (0:Int) ≤ (runSchedule (initSystem 0 1 0 2) [0, 1, 0, 1]).acc_paid) ∧
    successCount (runSchedule (initSystem 0 1 0 2) (seqSched 0 2))
        = min 2 ((0:Int) + 1).toNat ∧
    (runSchedule (initSystem 0 1 0 2) (seqSched 0 2)).acc_free
        + (runSchedule (initSystem 0 1 0 2) (seqSched 0 2)).acc_paid
      = 0 + 1 - min 2 ((0:Int) + 1).toNat :=
  ⟨(spend_nonneg_and_serialized 0 1 0 2 (by decide) (by decide)).1 [0, 1, 0, 1],
   (spend_nonneg_and_serialized 0 1 0 2 (by decide) (by decide)).2.1,
   (spend_nonneg_and_serialized 0 1 0 2 (by decide) (by decide)).2.2⟩
